import Mathlib

/-!
Verification development for the video_web job processing pipeline.

Shallow embedding of the core of the repository:
  src/processing-worker/worker.js  (task orchestrator, worker loop, transform engine)
  src/upload-service/server.js     (enqueue contract, queue channel client)

External effects (ffmpeg/ffprobe processes, Redis) are modelled by an
environment record supplying the outcome of each external operation, and by
an explicit event trace recording every write to the Job Record Store
(Redis keys job_id and the liveness marker job_id_processing) and every
task execution, in program order.
-/

namespace VideoWeb

/-! ## Frame rate computation (worker.js extractMetadata, line 126)

The source computes the fps field of the probe result as
  fps: eval(videoStream.r_frame_rate) || 0
that is, by handing the rational string to the JavaScript general
expression evaluator. jsEvalArith models that evaluator restricted to the
arithmetic expression forms relevant here: a single integer, a quotient of
two integers, and a sum of two integers; any such string is evaluated as
an expression, exactly as eval would. parseRationalFps is the strict
rational-string parser the specification demands instead. -/

/-- Split a character list on a separator character (the pieces between
occurrences of the separator, in order). -/
def splitOnChar (c : Char) : List Char → List (List Char)
  | [] => [[]]
  | x :: xs =>
    if x = c then
      [] :: splitOnChar c xs
    else
      match splitOnChar c xs with
      | [] => [[x]]
      | y :: ys => (x :: y) :: ys

/-- Accumulate a decimal digit list into a number; none on a non-digit. -/
def digitsAux : List Char → Nat → Option Nat
  | [], acc => some acc
  | c :: cs, acc =>
    if c.isDigit then digitsAux cs (acc * 10 + (c.toNat - 48)) else none

/-- Parse a nonempty all-digit character list as a natural number. -/
def parseNatChars : List Char → Option Nat
  | [] => none
  | l => digitsAux l 0

/-- Model of the JavaScript eval call at worker.js:126, restricted to
integer arithmetic strings: a bare integer, a quotient a/b, or a sum a+b
is evaluated as an arithmetic expression; anything else (and division by
zero, whose JavaScript value is not a finite number) yields none. -/
def jsEvalArith (s : String) : Option Rat :=
  match splitOnChar '/' s.data with
  | [a, b] =>
    match parseNatChars a, parseNatChars b with
    | some n, some d => if d = 0 then none else some ((n : Rat) / (d : Rat))
    | _, _ => none
  | _ =>
    match splitOnChar '+' s.data with
    | [a, b] =>
      match parseNatChars a, parseNatChars b with
      | some n, some m => some ((n : Rat) + (m : Rat))
      | _, _ => none
    | _ => (parseNatChars s.data).map (fun n => (n : Rat))

/-- Modelled from the spec: the strict rational-string parser required by
the specification for frame rates — split on the slash, parse numerator
and denominator as integers, divide; reject every other shape instead of
evaluating it. -/
def parseRationalFps (s : String) : Option Rat :=
  match splitOnChar '/' s.data with
  | [a, b] =>
    match parseNatChars a, parseNatChars b with
    | some n, some d => if d = 0 then none else some ((n : Rat) / (d : Rat))
    | _, _ => none
  | _ => none

/-! ## Probe result (worker.js extractMetadata, lines 108-137) -/

/-- One stream of the raw ffprobe output. -/
structure RawStream where
  codec_type : String
  codec_name : String
  width : Nat
  height : Nat
  r_frame_rate : String
  channels : Nat
  sample_rate : Nat
deriving DecidableEq, Repr

/-- The format section of the raw ffprobe output. -/
structure RawFormat where
  duration : Rat
  size : Nat
  bit_rate : Nat
  format_name : String
deriving DecidableEq, Repr

/-- The raw ffprobe output. -/
structure RawProbe where
  format : RawFormat
  streams : List RawStream
deriving DecidableEq, Repr

/-- Video stream summary produced by extractMetadata. -/
structure VideoInfo where
  codec : String
  width : Nat
  height : Nat
  fps : Rat
deriving DecidableEq, Repr

/-- Audio stream summary produced by extractMetadata. -/
structure AudioInfo where
  codec : String
  channels : Nat
  sample_rate : Nat
deriving DecidableEq, Repr

/-- The structured metadata object extractMetadata resolves with. -/
structure Metadata where
  duration : Rat
  size : Nat
  bitrate : Nat
  format : String
  video : Option VideoInfo
  audio : Option AudioInfo
deriving DecidableEq, Repr

/-- worker.js extractMetadata: given the outcome of the ffprobe call
(either an error or the raw probe data), build the metadata object. The
fps field is computed by the eval call modelled by jsEvalArith; the
JavaScript fallback (eval result or 0) is getD 0. -/
def extractMetadata (probe : Except String RawProbe) : Except String Metadata :=
  match probe with
  | Except.error e => Except.error e
  | Except.ok md =>
    let videoStream := md.streams.find? (fun s => s.codec_type == "video")
    let audioStream := md.streams.find? (fun s => s.codec_type == "audio")
    Except.ok
      { duration := md.format.duration
        size := md.format.size
        bitrate := md.format.bit_rate
        format := md.format.format_name
        video := videoStream.map (fun vs =>
          { codec := vs.codec_name
            width := vs.width
            height := vs.height
            fps := (jsEvalArith vs.r_frame_rate).getD 0 })
        audio := audioStream.map (fun sa =>
          { codec := sa.codec_name
            channels := sa.channels
            sample_rate := sa.sample_rate }) }

/-- A probe fixture whose video stream carries the arithmetic expression
1+1 in its frame-rate field instead of a rational string. -/
def probeExprFixture : RawProbe :=
  { format := { duration := 10, size := 1000, bit_rate := 800, format_name := "mp4" }
    streams := [{ codec_type := "video", codec_name := "h264", width := 1280,
                  height := 720, r_frame_rate := "1+1", channels := 0,
                  sample_rate := 0 }] }

/-- C1: the claim requires the frame rate to be computed by parsing
numerator and denominator and dividing, never by evaluating the string as
a general expression. The source uses the general expression evaluator
(eval): on the fixture whose frame-rate field holds the expression 1+1,
extractMetadata returns fps 2 — the value of the evaluated expression —
whereas the strict rational parser rejects that string; on a genuine
rational string both agree numerically. -/
theorem c1_fps_evaluated_as_general_expression :
    jsEvalArith "1+1" = some 2 ∧
    parseRationalFps "1+1" = none ∧
    (extractMetadata (Except.ok probeExprFixture)).toOption.bind
      (fun m => m.video.map VideoInfo.fps) = some 2 ∧
    jsEvalArith "30000/1001" = some (30000 / 1001 : Rat) ∧
    parseRationalFps "30000/1001" = some (30000 / 1001 : Rat) := by
  refine ⟨?_, by decide, ?_, ?_, ?_⟩
  · have h : jsEvalArith "1+1" = some (((1 : Nat) : Rat) + ((1 : Nat) : Rat)) := rfl
    rw [h]; norm_num
  · have h : (extractMetadata (Except.ok probeExprFixture)).toOption.bind
        (fun m => m.video.map VideoInfo.fps)
        = some (((1 : Nat) : Rat) + ((1 : Nat) : Rat)) := rfl
    rw [h]; norm_num
  · have h : jsEvalArith "30000/1001"
        = some (((30000 : Nat) : Rat) / ((1001 : Nat) : Rat)) := rfl
    rw [h]; norm_num
  · have h : parseRationalFps "30000/1001"
        = some (((30000 : Nat) : Rat) / ((1001 : Nat) : Rat)) := rfl
    rw [h]; norm_num

/-! ## Job records and the task orchestrator (worker.js processVideo, lines 169-232)

A Job mirrors the JSON job object created by the upload service
(src/upload-service/server.js lines 117-130) and mutated by the worker.
Timestamps are abstract naturals. The worker run is parameterised by an
environment giving the outcome of each external ffmpeg operation, and by
the two wall-clock instants the run observes (start of processing,
terminal transition). The run returns the final job object together with
the ordered trace of store writes and task executions. -/

/-- Job status values written into the status field. -/
inductive Status
  | queued
  | processing
  | completed
  | failed
deriving DecidableEq, Repr

/-- The job object: fields set by the upload service at enqueue time plus
the fields the worker adds during processing. Absent JSON fields are
none. -/
structure Job where
  id : String
  filePath : String
  fileName : String
  isAudio : Bool
  tasks : List String
  status : Status
  createdAt : Nat
  progress : Nat := 0
  startedAt : Option Nat := none
  completedAt : Option Nat := none
  processingTime : Option Int := none
  metadata : Option Metadata := none
  convertedPath : Option String := none
  thumbnailPath : Option String := none
  compressedPath : Option String := none
  error : Option String := none
deriving DecidableEq, Repr

instance exceptDecEq {α β : Type} [DecidableEq α] [DecidableEq β] :
    DecidableEq (Except α β) := fun x y =>
  match x, y with
  | Except.error a, Except.error b =>
    if h : a = b then isTrue (by rw [h])
    else isFalse (by intro hc; injection hc; contradiction)
  | Except.error _, Except.ok _ => isFalse (by intro hc; cases hc)
  | Except.ok _, Except.error _ => isFalse (by intro hc; cases hc)
  | Except.ok a, Except.ok b =>
    if h : a = b then isTrue (by rw [h])
    else isFalse (by intro hc; injection hc; contradiction)

/-- Outcome of each external ffmpeg/ffprobe operation for one run; an
error value is the message of the rejected promise. -/
structure Env where
  probeResult : Except String RawProbe
  convertResult : Except String Unit
  thumbnailResult : Except String Unit
  compressResult : Except String Unit
deriving DecidableEq, Repr

/-- The fixed output directory of the worker (worker.js:171). -/
def outputDir : String := "/app/outputs"

/-- worker.js generateThumbnail (lines 64-81): on success resolves with
the thumbnail path built from the job id. -/
def generateThumbnail (env : Env) (dir jobId : String) : Except String String :=
  env.thumbnailResult.map (fun _ => dir ++ "/" ++ jobId ++ "_thumbnail.jpg")

/-- worker.js convertAudio (lines 83-106): on success resolves with the
converted mp3 path built from the job id. -/
def convertAudio (env : Env) (dir jobId : String) : Except String String :=
  env.convertResult.map (fun _ => dir ++ "/" ++ jobId ++ "_converted.mp3")

/-- worker.js compressVideo (lines 139-166): on success resolves with the
compressed mp4 path built from the job id. -/
def compressVideo (env : Env) (dir jobId : String) : Except String String :=
  env.compressResult.map (fun _ => dir ++ "/" ++ jobId ++ "_compressed.mp4")

/-- The four task kinds the orchestrator can execute. -/
inductive TaskName
  | metadataT
  | thumbnailT
  | compressT
  | convertT
deriving DecidableEq, Repr

/-- One observable event of a processing run, in program order: a full
snapshot written to the Job Record Store (redis set of job_id), setting
or deleting the liveness marker (job_id_processing), or the execution of
one task. -/
inductive Ev
  | putJob (j : Job)
  | setLive
  | clearLive
  | runTask (t : TaskName)
deriving DecidableEq, Repr

/-- worker.js lines 175-177: mark the job processing, record startedAt
and reset progress to 0. -/
def startJob (t0 : Nat) (job : Job) : Job :=
  { job with status := Status.processing, startedAt := some t0, progress := 0 }

/-- worker.js lines 186-187: attach the extracted metadata and set the
first progress checkpoint (50 for audio, 33 for video). -/
def metaJob (j : Job) (md : Metadata) : Job :=
  { j with metadata := some md, progress := if j.isAudio then 50 else 33 }

/-- worker.js lines 194-195: attach the converted audio path, progress
100. -/
def convertedJob (j : Job) (p : String) : Job :=
  { j with convertedPath := some p, progress := 100 }

/-- worker.js lines 201-202: attach the thumbnail path, progress 66. -/
def thumbJob (j : Job) (p : String) : Job :=
  { j with thumbnailPath := some p, progress := 66 }

/-- worker.js lines 208-209: attach the compressed video path, progress
100. -/
def compressedJob (j : Job) (p : String) : Job :=
  { j with compressedPath := some p, progress := 100 }

/-- The catch block of processVideo (worker.js lines 222-231): mark the
job failed, record the error message and completion time, write the
snapshot and delete the liveness marker. -/
def failJob (j : Job) (e : String) (t1 : Nat) : Job × List Ev :=
  let jf := { j with status := Status.failed, error := some e,
                     completedAt := some t1 }
  (jf, [Ev.putJob jf, Ev.clearLive])

/-- The final update of processVideo (worker.js lines 212-218): mark the
job completed, record completion time and processing duration, write the
snapshot and delete the liveness marker. -/
def completeJob (j : Job) (t1 : Nat) : Job × List Ev :=
  let jc := { j with status := Status.completed, completedAt := some t1,
                     processingTime := some ((t1 : Int) - ((j.startedAt.getD 0 : Nat) : Int)) }
  (jc, [Ev.putJob jc, Ev.clearLive])

/-- worker.js processVideo (lines 169-232): set Processing with startedAt
and progress 0 and write the snapshot and liveness marker; run metadata
extraction; then, audio jobs run the audio conversion while video jobs
run thumbnail generation and then compression, with a snapshot written
after every successful task; any rejected operation jumps to the catch
block with the job state accumulated so far. -/
def processVideo (env : Env) (t0 t1 : Nat) (job : Job) : Job × List Ev :=
  let j1 := startJob t0 job
  let pre : List Ev := [Ev.putJob j1, Ev.setLive, Ev.runTask TaskName.metadataT]
  match extractMetadata env.probeResult with
  | Except.error e =>
    let r := failJob j1 e t1
    (r.1, pre ++ r.2)
  | Except.ok md =>
    let j2 := metaJob j1 md
    let pre2 := pre ++ [Ev.putJob j2]
    if job.isAudio then
      match convertAudio env outputDir job.id with
      | Except.error e =>
        let r := failJob j2 e t1
        (r.1, pre2 ++ [Ev.runTask TaskName.convertT] ++ r.2)
      | Except.ok p =>
        let j3 := convertedJob j2 p
        let r := completeJob j3 t1
        (r.1, pre2 ++ [Ev.runTask TaskName.convertT] ++ r.2)
    else
      match generateThumbnail env outputDir job.id with
      | Except.error e =>
        let r := failJob j2 e t1
        (r.1, pre2 ++ [Ev.runTask TaskName.thumbnailT] ++ r.2)
      | Except.ok tp =>
        let j3 := thumbJob j2 tp
        let pre3 := pre2 ++ [Ev.runTask TaskName.thumbnailT, Ev.putJob j3]
        match compressVideo env outputDir job.id with
        | Except.error e =>
          let r := failJob j3 e t1
          (r.1, pre3 ++ [Ev.runTask TaskName.compressT] ++ r.2)
        | Except.ok cp =>
          let j4 := compressedJob j3 cp
          let r := completeJob j4 t1
          (r.1, pre3 ++ [Ev.runTask TaskName.compressT] ++ r.2)

/-- The snapshots written to the Job Record Store during a run, in write
order. -/
def snapshots (evs : List Ev) : List Job :=
  evs.filterMap (fun e => match e with
    | Ev.putJob j => some j
    | _ => none)

/-- The tasks executed during a run, in execution order. -/
def tasksRun (evs : List Ev) : List TaskName :=
  evs.filterMap (fun e => match e with
    | Ev.runTask t => some t
    | _ => none)

/-- A job object as the upload service enqueues it: status queued and
none of the worker-written fields present. -/
def Job.fresh (j : Job) : Prop :=
  j.status = Status.queued ∧ j.progress = 0 ∧ j.startedAt = none ∧
  j.completedAt = none ∧ j.processingTime = none ∧ j.metadata = none ∧
  j.convertedPath = none ∧ j.thumbnailPath = none ∧
  j.compressedPath = none ∧ j.error = none

instance (j : Job) : Decidable j.fresh := by
  unfold Job.fresh
  infer_instance

/-- The tasks field the upload service stores in the queue entry
(src/upload-service/server.js line 129); note the video list names
thumbnail before metadata. -/
def enqueueTasks (isAudio : Bool) : List String :=
  if isAudio then ["metadata", "convert"]
  else ["thumbnail", "metadata", "compress"]

/-- Rank of a status along the forward direction of the state machine;
both terminal states share the top rank. -/
def statusRank : Status → Nat
  | Status.queued => 0
  | Status.processing => 1
  | Status.completed => 2
  | Status.failed => 2

/-- Error messages carried by an external operation outcome are nonempty
(ffmpeg rejection messages are human-readable text). -/
def msgOk {α : Type} : Except String α → Prop
  | Except.error e => ¬e = ""
  | Except.ok _ => True

instance msgOkDec {α : Type} : (x : Except String α) → Decidable (msgOk x)
  | Except.error _ => instDecidableNot
  | Except.ok _ => isTrue trivial

/-- Every external operation of the environment that fails carries a
nonempty message. -/
def Env.goodMessages (env : Env) : Prop :=
  msgOk env.probeResult ∧ msgOk env.convertResult ∧
  msgOk env.thumbnailResult ∧ msgOk env.compressResult

instance (env : Env) : Decidable env.goodMessages := by
  unfold Env.goodMessages
  infer_instance

/-! ## Queue Channel (server.js line 133, worker.js line 241)

The upload service enqueues with redis lPush (prepend at the head of the
stored list) and the worker dequeues with redis brPop (blocking pop of
the tail), so the element pushed earliest is popped first. The channel
state is the stored list, head first. -/

/-- redis lPush: prepend the serialized entry. -/
def lPush (q : List String) (x : String) : List String := x :: q

/-- redis brPop: remove and return the tail (earliest pushed) element;
none models the timeout elapsing on an empty list. -/
def brPop : List String → Option (String × List String)
  | [] => none
  | [x] => some (x, [])
  | x :: y :: rest =>
    match brPop (y :: rest) with
    | none => none
    | some (z, q) => some (z, x :: q)

/-- An operation on the queue channel: an enqueue by the upload service
or one dequeue attempt by the worker loop. -/
inductive QOp
  | enq (x : String)
  | deq
deriving DecidableEq, Repr

/-- Run a sequence of queue operations from a given channel state,
returning the final state and the entries delivered to the worker, in
delivery order; a dequeue on an empty channel delivers nothing (the
timeout elapses). -/
def runQueue : List QOp → List String → List String × List String
  | [], q => (q, [])
  | QOp.enq x :: ops, q => runQueue ops (lPush q x)
  | QOp.deq :: ops, q =>
    match brPop q with
    | none => runQueue ops q
    | some (x, q') =>
      let r := runQueue ops q'
      (r.1, x :: r.2)

/-- The entries enqueued by a sequence of queue operations, in enqueue
order. -/
def enqueued : List QOp → List String
  | [] => []
  | QOp.enq x :: ops => x :: enqueued ops
  | QOp.deq :: ops => enqueued ops

/-! ## Worker Loop (worker.js lines 235-259) -/

/-- Outcome of one blocking dequeue: the 5 second timeout elapsed with
nothing delivered, a job was delivered, or the channel client raised an
infrastructure-level error. -/
inductive PollOutcome
  | timeoutEmpty
  | delivered (j : Job)
  | infraError
deriving Repr

/-- One iteration of workerLoop: on a delivered job, run processVideo
synchronously to its terminal state; the try block always ends with the
fixed 100 ms pause (worker.js line 252) before the next dequeue, and the
catch block pauses 5000 ms (worker.js line 256) without touching any
job. Returns the processed job result, if any, and the pause in
milliseconds before the next dequeue is issued. -/
def workerIteration (env : Env) (t0 t1 : Nat) : PollOutcome → Option Job × Nat
  | PollOutcome.timeoutEmpty => (none, 100)
  | PollOutcome.delivered j => (some (processVideo env t0 t1 j).1, 100)
  | PollOutcome.infraError => (none, 5000)

/-! ## Concrete fixtures used by the witnesses -/

/-- A probe fixture for an mp3 input: one audio stream, no video
stream. -/
def probeAudioFixture : RawProbe :=
  { format := { duration := 10, size := 1000, bit_rate := 800, format_name := "mp3" }
    streams := [{ codec_type := "audio", codec_name := "mp3", width := 0,
                  height := 0, r_frame_rate := "0/0", channels := 2,
                  sample_rate := 44100 }] }

/-- The metadata object extractMetadata produces from
probeAudioFixture. -/
def mdW : Metadata :=
  { duration := 10, size := 1000, bitrate := 800, format := "mp3",
    video := none,
    audio := some { codec := "mp3", channels := 2, sample_rate := 44100 } }

/-- An environment in which every external operation succeeds. -/
def envAllOk : Env :=
  { probeResult := Except.ok probeAudioFixture,
    convertResult := Except.ok (),
    thumbnailResult := Except.ok (),
    compressResult := Except.ok () }

/-- An environment in which the probe succeeds but the audio conversion
and the thumbnail extraction are rejected with a nonempty message. -/
def envConvertFail : Env :=
  { probeResult := Except.ok probeAudioFixture,
    convertResult := Except.error "ffmpeg exited with code 1",
    thumbnailResult := Except.error "ffmpeg exited with code 1",
    compressResult := Except.ok () }

/-- A freshly enqueued audio job descriptor. -/
def jobAudioW : Job :=
  { id := "101_abc", filePath := "/app/uploads/101_abc_song.mp3",
    fileName := "101_abc_song.mp3", isAudio := true,
    tasks := enqueueTasks true, status := Status.queued, createdAt := 5 }

/-- A freshly enqueued video job descriptor. -/
def jobVideoW : Job :=
  { id := "102_def", filePath := "/app/uploads/102_def_clip.mp4",
    fileName := "102_def_clip.mp4", isAudio := false,
    tasks := enqueueTasks false, status := Status.queued, createdAt := 6 }

/-! ## Run shape lemmas: one per control-flow path of processVideo -/

theorem run_metaErr (env : Env) (t0 t1 : Nat) (job : Job) (e : String)
    (hp : extractMetadata env.probeResult = Except.error e) :
    processVideo env t0 t1 job =
      ((failJob (startJob t0 job) e t1).1,
        [Ev.putJob (startJob t0 job), Ev.setLive, Ev.runTask TaskName.metadataT]
          ++ (failJob (startJob t0 job) e t1).2) := by
  simp [processVideo, hp]

theorem run_audio_convErr (env : Env) (t0 t1 : Nat) (job : Job)
    (md : Metadata) (e : String) (hA : job.isAudio = true)
    (hm : extractMetadata env.probeResult = Except.ok md)
    (hc : env.convertResult = Except.error e) :
    processVideo env t0 t1 job =
      ((failJob (metaJob (startJob t0 job) md) e t1).1,
        [Ev.putJob (startJob t0 job), Ev.setLive, Ev.runTask TaskName.metadataT,
         Ev.putJob (metaJob (startJob t0 job) md), Ev.runTask TaskName.convertT]
          ++ (failJob (metaJob (startJob t0 job) md) e t1).2) := by
  simp [processVideo, hm, hA, convertAudio, hc, Except.map]

theorem run_audio_ok (env : Env) (t0 t1 : Nat) (job : Job)
    (md : Metadata) (hA : job.isAudio = true)
    (hm : extractMetadata env.probeResult = Except.ok md)
    (hc : env.convertResult = Except.ok ()) :
    processVideo env t0 t1 job =
      ((completeJob (convertedJob (metaJob (startJob t0 job) md)
          (outputDir ++ "/" ++ job.id ++ "_converted.mp3")) t1).1,
        [Ev.putJob (startJob t0 job), Ev.setLive, Ev.runTask TaskName.metadataT,
         Ev.putJob (metaJob (startJob t0 job) md), Ev.runTask TaskName.convertT]
          ++ (completeJob (convertedJob (metaJob (startJob t0 job) md)
              (outputDir ++ "/" ++ job.id ++ "_converted.mp3")) t1).2) := by
  simp [processVideo, hm, hA, convertAudio, hc, Except.map]

theorem run_video_thumbErr (env : Env) (t0 t1 : Nat) (job : Job)
    (md : Metadata) (e : String) (hA : job.isAudio = false)
    (hm : extractMetadata env.probeResult = Except.ok md)
    (ht : env.thumbnailResult = Except.error e) :
    processVideo env t0 t1 job =
      ((failJob (metaJob (startJob t0 job) md) e t1).1,
        [Ev.putJob (startJob t0 job), Ev.setLive, Ev.runTask TaskName.metadataT,
         Ev.putJob (metaJob (startJob t0 job) md), Ev.runTask TaskName.thumbnailT]
          ++ (failJob (metaJob (startJob t0 job) md) e t1).2) := by
  simp [processVideo, hm, hA, generateThumbnail, ht, Except.map]

theorem run_video_compErr (env : Env) (t0 t1 : Nat) (job : Job)
    (md : Metadata) (e : String) (hA : job.isAudio = false)
    (hm : extractMetadata env.probeResult = Except.ok md)
    (ht : env.thumbnailResult = Except.ok ())
    (hk : env.compressResult = Except.error e) :
    processVideo env t0 t1 job =
      ((failJob (thumbJob (metaJob (startJob t0 job) md)
          (outputDir ++ "/" ++ job.id ++ "_thumbnail.jpg")) e t1).1,
        [Ev.putJob (startJob t0 job), Ev.setLive, Ev.runTask TaskName.metadataT,
         Ev.putJob (metaJob (startJob t0 job) md), Ev.runTask TaskName.thumbnailT,
         Ev.putJob (thumbJob (metaJob (startJob t0 job) md)
           (outputDir ++ "/" ++ job.id ++ "_thumbnail.jpg")),
         Ev.runTask TaskName.compressT]
          ++ (failJob (thumbJob (metaJob (startJob t0 job) md)
              (outputDir ++ "/" ++ job.id ++ "_thumbnail.jpg")) e t1).2) := by
  simp [processVideo, hm, hA, generateThumbnail, ht, compressVideo, hk, Except.map]

theorem run_video_ok (env : Env) (t0 t1 : Nat) (job : Job)
    (md : Metadata) (hA : job.isAudio = false)
    (hm : extractMetadata env.probeResult = Except.ok md)
    (ht : env.thumbnailResult = Except.ok ())
    (hk : env.compressResult = Except.ok ()) :
    processVideo env t0 t1 job =
      ((completeJob (compressedJob (thumbJob (metaJob (startJob t0 job) md)
          (outputDir ++ "/" ++ job.id ++ "_thumbnail.jpg"))
          (outputDir ++ "/" ++ job.id ++ "_compressed.mp4")) t1).1,
        [Ev.putJob (startJob t0 job), Ev.setLive, Ev.runTask TaskName.metadataT,
         Ev.putJob (metaJob (startJob t0 job) md), Ev.runTask TaskName.thumbnailT,
         Ev.putJob (thumbJob (metaJob (startJob t0 job) md)
           (outputDir ++ "/" ++ job.id ++ "_thumbnail.jpg")),
         Ev.runTask TaskName.compressT]
          ++ (completeJob (compressedJob (thumbJob (metaJob (startJob t0 job) md)
              (outputDir ++ "/" ++ job.id ++ "_thumbnail.jpg"))
              (outputDir ++ "/" ++ job.id ++ "_compressed.mp4")) t1).2) := by
  simp [processVideo, hm, hA, generateThumbnail, ht, compressVideo, hk, Except.map]

theorem processVideo_terminal (env : Env) (t0 t1 : Nat) (job : Job) :
    (processVideo env t0 t1 job).1.status = Status.completed ∨
    (processVideo env t0 t1 job).1.status = Status.failed := by
  rcases hm : extractMetadata env.probeResult with e | md
  · rw [run_metaErr env t0 t1 job e hm]; right; simp [failJob]
  · cases hA : job.isAudio
    · rcases ht : env.thumbnailResult with e | u
      · rw [run_video_thumbErr env t0 t1 job md e hA hm ht]
        right; simp [failJob]
      · cases u
        rcases hk : env.compressResult with e | u
        · rw [run_video_compErr env t0 t1 job md e hA hm ht hk]
          right; simp [failJob]
        · cases u
          rw [run_video_ok env t0 t1 job md hA hm ht hk]
          left; simp [completeJob]
    · rcases hc : env.convertResult with e | u
      · rw [run_audio_convErr env t0 t1 job md e hA hm hc]
        right; simp [failJob]
      · cases u
        rw [run_audio_ok env t0 t1 job md hA hm hc]
        left; simp [completeJob]

/-! ## Claims -/

/-- C2: for every job whose tasks all succeed, the executed task sequence
and the progress value persisted after each task are fixed by the media
kind: an audio job runs metadata then convert with snapshots at progress
0, 50, 100, and a video job runs metadata, thumbnail, compress with
snapshots at 0, 33, 66, 100; after each task completes a full snapshot
carrying the produced metadata and artifacts is written to the Job Record
Store before the next task starts. -/
theorem c2_task_sequence_and_checkpoints (env : Env) (t0 t1 : Nat)
    (job : Job) (md : Metadata)
    (hm : extractMetadata env.probeResult = Except.ok md)
    (hc : env.convertResult = Except.ok ())
    (ht : env.thumbnailResult = Except.ok ())
    (hk : env.compressResult = Except.ok ()) :
    (job.isAudio = true →
      ∃ s0 s1 s2, (processVideo env t0 t1 job).2 =
        [Ev.putJob s0, Ev.setLive, Ev.runTask TaskName.metadataT,
         Ev.putJob s1, Ev.runTask TaskName.convertT, Ev.putJob s2,
         Ev.clearLive] ∧
        s0.progress = 0 ∧ s1.progress = 50 ∧ s2.progress = 100 ∧
        s1.metadata = some md ∧
        s2.convertedPath = some (outputDir ++ "/" ++ job.id ++ "_converted.mp3") ∧
        s2.status = Status.completed) ∧
    (job.isAudio = false →
      ∃ s0 s1 s2 s3, (processVideo env t0 t1 job).2 =
        [Ev.putJob s0, Ev.setLive, Ev.runTask TaskName.metadataT,
         Ev.putJob s1, Ev.runTask TaskName.thumbnailT, Ev.putJob s2,
         Ev.runTask TaskName.compressT, Ev.putJob s3, Ev.clearLive] ∧
        s0.progress = 0 ∧ s1.progress = 33 ∧ s2.progress = 66 ∧
        s3.progress = 100 ∧ s1.metadata = some md ∧
        s2.thumbnailPath = some (outputDir ++ "/" ++ job.id ++ "_thumbnail.jpg") ∧
        s3.compressedPath = some (outputDir ++ "/" ++ job.id ++ "_compressed.mp4") ∧
        s3.status = Status.completed) := by
  constructor
  · intro hA
    rw [run_audio_ok env t0 t1 job md hA hm hc]
    refine ⟨startJob t0 job, metaJob (startJob t0 job) md,
      (completeJob (convertedJob (metaJob (startJob t0 job) md)
        (outputDir ++ "/" ++ job.id ++ "_converted.mp3")) t1).1,
      ?_, ?_, ?_, ?_, ?_, ?_, ?_⟩ <;>
      simp [startJob, metaJob, convertedJob, completeJob, hA]
  · intro hA
    rw [run_video_ok env t0 t1 job md hA hm ht hk]
    refine ⟨startJob t0 job, metaJob (startJob t0 job) md,
      thumbJob (metaJob (startJob t0 job) md)
        (outputDir ++ "/" ++ job.id ++ "_thumbnail.jpg"),
      (completeJob (compressedJob (thumbJob (metaJob (startJob t0 job) md)
        (outputDir ++ "/" ++ job.id ++ "_thumbnail.jpg"))
        (outputDir ++ "/" ++ job.id ++ "_compressed.mp4")) t1).1,
      ?_, ?_, ?_, ?_, ?_, ?_, ?_, ?_, ?_⟩ <;>
      simp [startJob, metaJob, thumbJob, compressedJob, completeJob, hA]

/-- C2 witness: on the concrete all-success environment and the concrete
audio job, the persisted progress checkpoints are 0, 50, 100. -/
theorem c2_witness :
    (snapshots (processVideo envAllOk 3 9 jobAudioW).2).map Job.progress
      = [0, 50, 100] := by
  obtain ⟨s0, s1, s2, htr, h0, h1, h2, -, -, -⟩ :=
    (c2_task_sequence_and_checkpoints envAllOk 3 9 jobAudioW mdW
      (by decide) rfl rfl rfl).1 rfl
  rw [htr]
  simp [snapshots, h0, h1, h2]

/-- C3: every run that ends Completed carries exactly the outputs of the
tasks of its media kind — metadata and the converted audio path for an
audio job, metadata plus thumbnail and compressed paths for a video job,
with the artifacts of the other kind absent — and its progress is
100. -/
theorem c3_completed_exact_artifacts (env : Env) (t0 t1 : Nat) (job : Job)
    (hf : job.fresh) :
    (processVideo env t0 t1 job).1.status = Status.completed →
      (processVideo env t0 t1 job).1.progress = 100 ∧
      (processVideo env t0 t1 job).1.metadata.isSome = true ∧
      (job.isAudio = true →
        (processVideo env t0 t1 job).1.convertedPath
          = some (outputDir ++ "/" ++ job.id ++ "_converted.mp3") ∧
        (processVideo env t0 t1 job).1.thumbnailPath = none ∧
        (processVideo env t0 t1 job).1.compressedPath = none) ∧
      (job.isAudio = false →
        (processVideo env t0 t1 job).1.thumbnailPath
          = some (outputDir ++ "/" ++ job.id ++ "_thumbnail.jpg") ∧
        (processVideo env t0 t1 job).1.compressedPath
          = some (outputDir ++ "/" ++ job.id ++ "_compressed.mp4") ∧
        (processVideo env t0 t1 job).1.convertedPath = none) := by
  obtain ⟨h1, h2, h3, h4, h5, h6, h7, h8, h9, h10⟩ := hf
  intro hdone
  rcases hm : extractMetadata env.probeResult with e | md
  · rw [run_metaErr env t0 t1 job e hm] at hdone
    simp [failJob] at hdone
  · cases hA : job.isAudio
    · rcases ht : env.thumbnailResult with e | u
      · rw [run_video_thumbErr env t0 t1 job md e hA hm ht] at hdone
        simp [failJob] at hdone
      · cases u
        rcases hk : env.compressResult with e | u
        · rw [run_video_compErr env t0 t1 job md e hA hm ht hk] at hdone
          simp [failJob] at hdone
        · cases u
          rw [run_video_ok env t0 t1 job md hA hm ht hk]
          simp [completeJob, compressedJob, thumbJob, metaJob, startJob, hA, h7]
    · rcases hc : env.convertResult with e | u
      · rw [run_audio_convErr env t0 t1 job md e hA hm hc] at hdone
        simp [failJob] at hdone
      · cases u
        rw [run_audio_ok env t0 t1 job md hA hm hc]
        simp [completeJob, convertedJob, metaJob, startJob, hA, h8, h9]

/-- C3 witness: the concrete audio run completes, and the theorem yields
progress 100 with no thumbnail artifact. -/
theorem c3_witness :
    (processVideo envAllOk 3 9 jobAudioW).1.progress = 100 ∧
    (processVideo envAllOk 3 9 jobAudioW).1.thumbnailPath = none := by
  have h := c3_completed_exact_artifacts envAllOk 3 9 jobAudioW (by decide)
    (by rw [run_audio_ok envAllOk 3 9 jobAudioW mdW rfl (by decide) rfl]
        simp [completeJob])
  exact ⟨h.1, (h.2.2.1 rfl).2.1⟩

theorem extractMetadata_error_iff (x : Except String RawProbe) (e : String) :
    extractMetadata x = Except.error e ↔ x = Except.error e := by
  cases x <;> simp [extractMetadata]

/-- C4: the first task to fail aborts the remaining sequence — no later
task runs and no task is retried — and the job transitions to Failed with
the nonempty failure message recorded and the liveness marker cleared;
the error field is set only on that transition and never on a Completed
job. -/
theorem c4_first_failure_aborts (env : Env) (t0 t1 : Nat) (job : Job)
    (hf : job.fresh) (hg : env.goodMessages) :
    (tasksRun (processVideo env t0 t1 job).2).Nodup ∧
    ((processVideo env t0 t1 job).1.status = Status.completed →
      (processVideo env t0 t1 job).1.error = none) ∧
    (∀ e, extractMetadata env.probeResult = Except.error e →
      tasksRun (processVideo env t0 t1 job).2 = [TaskName.metadataT] ∧
      (processVideo env t0 t1 job).1.status = Status.failed ∧
      (processVideo env t0 t1 job).1.error = some e ∧ ¬e = "" ∧
      Ev.clearLive ∈ (processVideo env t0 t1 job).2) ∧
    (∀ md e, job.isAudio = true →
      extractMetadata env.probeResult = Except.ok md →
      env.convertResult = Except.error e →
      tasksRun (processVideo env t0 t1 job).2
        = [TaskName.metadataT, TaskName.convertT] ∧
      (processVideo env t0 t1 job).1.status = Status.failed ∧
      (processVideo env t0 t1 job).1.error = some e ∧ ¬e = "" ∧
      Ev.clearLive ∈ (processVideo env t0 t1 job).2) ∧
    (∀ md e, job.isAudio = false →
      extractMetadata env.probeResult = Except.ok md →
      env.thumbnailResult = Except.error e →
      tasksRun (processVideo env t0 t1 job).2
        = [TaskName.metadataT, TaskName.thumbnailT] ∧
      (processVideo env t0 t1 job).1.status = Status.failed ∧
      (processVideo env t0 t1 job).1.error = some e ∧ ¬e = "" ∧
      Ev.clearLive ∈ (processVideo env t0 t1 job).2) ∧
    (∀ md e, job.isAudio = false →
      extractMetadata env.probeResult = Except.ok md →
      env.thumbnailResult = Except.ok () →
      env.compressResult = Except.error e →
      tasksRun (processVideo env t0 t1 job).2
        = [TaskName.metadataT, TaskName.thumbnailT, TaskName.compressT] ∧
      (processVideo env t0 t1 job).1.status = Status.failed ∧
      (processVideo env t0 t1 job).1.error = some e ∧ ¬e = "" ∧
      Ev.clearLive ∈ (processVideo env t0 t1 job).2) := by
  obtain ⟨h1, h2, h3, h4, h5, h6, h7, h8, h9, h10⟩ := hf
  refine ⟨?_, ?_, ?_, ?_, ?_, ?_⟩
  · rcases hm : extractMetadata env.probeResult with e | md
    · rw [run_metaErr env t0 t1 job e hm]; simp [tasksRun, failJob]
    · cases hA : job.isAudio
      · rcases ht : env.thumbnailResult with e | u
        · rw [run_video_thumbErr env t0 t1 job md e hA hm ht]
          simp [tasksRun, failJob]
        · cases u
          rcases hk : env.compressResult with e | u
          · rw [run_video_compErr env t0 t1 job md e hA hm ht hk]
            simp [tasksRun, failJob]
          · cases u
            rw [run_video_ok env t0 t1 job md hA hm ht hk]
            simp [tasksRun, completeJob]
      · rcases hc : env.convertResult with e | u
        · rw [run_audio_convErr env t0 t1 job md e hA hm hc]
          simp [tasksRun, failJob]
        · cases u
          rw [run_audio_ok env t0 t1 job md hA hm hc]
          simp [tasksRun, completeJob]
  · intro hdone
    rcases hm : extractMetadata env.probeResult with e | md
    · rw [run_metaErr env t0 t1 job e hm] at hdone
      simp [failJob] at hdone
    · cases hA : job.isAudio
      · rcases ht : env.thumbnailResult with e | u
        · rw [run_video_thumbErr env t0 t1 job md e hA hm ht] at hdone
          simp [failJob] at hdone
        · cases u
          rcases hk : env.compressResult with e | u
          · rw [run_video_compErr env t0 t1 job md e hA hm ht hk] at hdone
            simp [failJob] at hdone
          · cases u
            rw [run_video_ok env t0 t1 job md hA hm ht hk]
            simp [completeJob, compressedJob, thumbJob, metaJob, startJob, h10]
      · rcases hc : env.convertResult with e | u
        · rw [run_audio_convErr env t0 t1 job md e hA hm hc] at hdone
          simp [failJob] at hdone
        · cases u
          rw [run_audio_ok env t0 t1 job md hA hm hc]
          simp [completeJob, convertedJob, metaJob, startJob, h10]
  · intro e hp
    have hpe : env.probeResult = Except.error e :=
      (extractMetadata_error_iff env.probeResult e).1 hp
    have hmsg : ¬e = "" := by
      have hh := hg.1
      rw [hpe] at hh
      exact hh
    rw [run_metaErr env t0 t1 job e hp]
    refine ⟨?_, ?_, ?_, hmsg, ?_⟩ <;> simp [tasksRun, failJob]
  · intro md e hA hm hc
    have hmsg : ¬e = "" := by
      have hh := hg.2.1
      rw [hc] at hh
      exact hh
    rw [run_audio_convErr env t0 t1 job md e hA hm hc]
    refine ⟨?_, ?_, ?_, hmsg, ?_⟩ <;> simp [tasksRun, failJob]
  · intro md e hA hm ht
    have hmsg : ¬e = "" := by
      have hh := hg.2.2.1
      rw [ht] at hh
      exact hh
    rw [run_video_thumbErr env t0 t1 job md e hA hm ht]
    refine ⟨?_, ?_, ?_, hmsg, ?_⟩ <;> simp [tasksRun, failJob]
  · intro md e hA hm ht hk
    have hmsg : ¬e = "" := by
      have hh := hg.2.2.2
      rw [hk] at hh
      exact hh
    rw [run_video_compErr env t0 t1 job md e hA hm ht hk]
    refine ⟨?_, ?_, ?_, hmsg, ?_⟩ <;> simp [tasksRun, failJob]

/-- C4 witness: with the conversion rejected, the concrete audio run
executes only metadata and convert, ends Failed, and records the ffmpeg
message. -/
theorem c4_witness :
    tasksRun (processVideo envConvertFail 3 9 jobAudioW).2
      = [TaskName.metadataT, TaskName.convertT] ∧
    (processVideo envConvertFail 3 9 jobAudioW).1.status = Status.failed ∧
    (processVideo envConvertFail 3 9 jobAudioW).1.error
      = some "ffmpeg exited with code 1" := by
  obtain ⟨htr, hst, herr, -, -⟩ :=
    (c4_first_failure_aborts envConvertFail 3 9 jobAudioW (by decide)
      (by decide)).2.2.2.1 mdW "ffmpeg exited with code 1" rfl (by decide) rfl
  exact ⟨htr, hst, herr⟩

/-- C5: over one job record history — the enqueued record followed by the
snapshots the run writes — the status only moves forward along Queued,
Processing, terminal; every non-final write is non-terminal (so a
terminal status, once written, is never changed by a later write), the
run ends in a terminal status with completedAt set, startedAt is written
as the same instant in every snapshot, and completedAt stays absent until
the terminal write. -/
theorem c5_status_forward_only (env : Env) (t0 t1 : Nat) (job : Job)
    (hf : job.fresh) :
    List.Chain' (fun a b => statusRank a.status ≤ statusRank b.status)
      (job :: snapshots (processVideo env t0 t1 job).2) ∧
    (∀ s ∈ (job :: snapshots (processVideo env t0 t1 job).2).dropLast,
      statusRank s.status ≤ 1) ∧
    (job :: snapshots (processVideo env t0 t1 job).2).reverse.head?
      = some (processVideo env t0 t1 job).1 ∧
    ((processVideo env t0 t1 job).1.status = Status.completed ∨
      (processVideo env t0 t1 job).1.status = Status.failed) ∧
    (processVideo env t0 t1 job).1.completedAt = some t1 ∧
    (∀ s ∈ snapshots (processVideo env t0 t1 job).2, s.startedAt = some t0) ∧
    (∀ s ∈ (snapshots (processVideo env t0 t1 job).2).dropLast,
      s.completedAt = none) := by
  obtain ⟨h1, h2, h3, h4, h5, h6, h7, h8, h9, h10⟩ := hf
  rcases hm : extractMetadata env.probeResult with e | md
  · rw [run_metaErr env t0 t1 job e hm]
    refine ⟨?_, ?_, ?_, ?_, ?_, ?_, ?_⟩ <;>
      simp [snapshots, startJob, failJob, statusRank, h1, h3, h4]
  · cases hA : job.isAudio
    · rcases ht : env.thumbnailResult with e | u
      · rw [run_video_thumbErr env t0 t1 job md e hA hm ht]
        refine ⟨?_, ?_, ?_, ?_, ?_, ?_, ?_⟩ <;>
          simp [snapshots, startJob, metaJob, failJob, statusRank, h1, h3, h4]
      · cases u
        rcases hk : env.compressResult with e | u
        · rw [run_video_compErr env t0 t1 job md e hA hm ht hk]
          refine ⟨?_, ?_, ?_, ?_, ?_, ?_, ?_⟩ <;>
            simp [snapshots, startJob, metaJob, thumbJob, failJob,
              statusRank, h1, h3, h4]
        · cases u
          rw [run_video_ok env t0 t1 job md hA hm ht hk]
          refine ⟨?_, ?_, ?_, ?_, ?_, ?_, ?_⟩ <;>
            simp [snapshots, startJob, metaJob, thumbJob, compressedJob,
              completeJob, statusRank, h1, h3, h4]
    · rcases hc : env.convertResult with e | u
      · rw [run_audio_convErr env t0 t1 job md e hA hm hc]
        refine ⟨?_, ?_, ?_, ?_, ?_, ?_, ?_⟩ <;>
          simp [snapshots, startJob, metaJob, failJob, statusRank, h1, h3, h4]
      · cases u
        rw [run_audio_ok env t0 t1 job md hA hm hc]
        refine ⟨?_, ?_, ?_, ?_, ?_, ?_, ?_⟩ <;>
          simp [snapshots, startJob, metaJob, convertedJob, completeJob,
            statusRank, h1, h3, h4]

/-- C5 witness: the concrete video run ends with completedAt set to the
terminal instant and a terminal status. -/
theorem c5_witness :
    (processVideo envAllOk 3 9 jobVideoW).1.completedAt = some 9 ∧
    ((processVideo envAllOk 3 9 jobVideoW).1.status = Status.completed ∨
      (processVideo envAllOk 3 9 jobVideoW).1.status = Status.failed) := by
  have h := c5_status_forward_only envAllOk 3 9 jobVideoW (by decide)
  exact ⟨h.2.2.2.2.1, h.2.2.2.1⟩

/-- C6: within any single run, the snapshots written to the Job Record
Store carry a progress that starts at 0 when Processing begins and never
decreases from one write to the next. -/
theorem c6_progress_monotone (env : Env) (t0 t1 : Nat) (job : Job) :
    ((snapshots (processVideo env t0 t1 job).2).map Job.progress).head?
      = some 0 ∧
    List.Chain' (fun a b => a ≤ b)
      ((snapshots (processVideo env t0 t1 job).2).map Job.progress) := by
  rcases hm : extractMetadata env.probeResult with e | md
  · rw [run_metaErr env t0 t1 job e hm]
    refine ⟨?_, ?_⟩ <;> simp [snapshots, startJob, failJob]
  · cases hA : job.isAudio
    · rcases ht : env.thumbnailResult with e | u
      · rw [run_video_thumbErr env t0 t1 job md e hA hm ht]
        refine ⟨?_, ?_⟩ <;>
          simp [snapshots, startJob, metaJob, failJob, hA]
      · cases u
        rcases hk : env.compressResult with e | u
        · rw [run_video_compErr env t0 t1 job md e hA hm ht hk]
          refine ⟨?_, ?_⟩ <;>
            simp [snapshots, startJob, metaJob, thumbJob, failJob, hA]
        · cases u
          rw [run_video_ok env t0 t1 job md hA hm ht hk]
          refine ⟨?_, ?_⟩ <;>
            simp [snapshots, startJob, metaJob, thumbJob, compressedJob,
              completeJob, hA]
    · rcases hc : env.convertResult with e | u
      · rw [run_audio_convErr env t0 t1 job md e hA hm hc]
        refine ⟨?_, ?_⟩ <;>
          simp [snapshots, startJob, metaJob, failJob, hA]
      · cases u
        rw [run_audio_ok env t0 t1 job md hA hm hc]
        refine ⟨?_, ?_⟩ <;>
          simp [snapshots, startJob, metaJob, convertedJob, completeJob, hA]

/-- C7: an audio run never writes a snapshot holding a thumbnail or
compressed-video artifact, and a video run never writes a snapshot
holding a converted-audio artifact. -/
theorem c7_kind_artifacts_disjoint (env : Env) (t0 t1 : Nat) (job : Job)
    (hf : job.fresh) :
    (job.isAudio = true →
      ∀ s ∈ snapshots (processVideo env t0 t1 job).2,
        s.thumbnailPath = none ∧ s.compressedPath = none) ∧
    (job.isAudio = false →
      ∀ s ∈ snapshots (processVideo env t0 t1 job).2,
        s.convertedPath = none) := by
  obtain ⟨h1, h2, h3, h4, h5, h6, h7, h8, h9, h10⟩ := hf
  constructor
  · intro hA
    rcases hm : extractMetadata env.probeResult with e | md
    · rw [run_metaErr env t0 t1 job e hm]
      simp [snapshots, startJob, failJob, h8, h9]
    · rcases hc : env.convertResult with e | u
      · rw [run_audio_convErr env t0 t1 job md e hA hm hc]
        simp [snapshots, startJob, metaJob, failJob, h8, h9]
      · cases u
        rw [run_audio_ok env t0 t1 job md hA hm hc]
        simp [snapshots, startJob, metaJob, convertedJob, completeJob, h8, h9]
  · intro hA
    rcases hm : extractMetadata env.probeResult with e | md
    · rw [run_metaErr env t0 t1 job e hm]
      simp [snapshots, startJob, failJob, h7]
    · rcases ht : env.thumbnailResult with e | u
      · rw [run_video_thumbErr env t0 t1 job md e hA hm ht]
        simp [snapshots, startJob, metaJob, failJob, h7]
      · cases u
        rcases hk : env.compressResult with e | u
        · rw [run_video_compErr env t0 t1 job md e hA hm ht hk]
          simp [snapshots, startJob, metaJob, thumbJob, failJob, h7]
        · cases u
          rw [run_video_ok env t0 t1 job md hA hm ht hk]
          simp [snapshots, startJob, metaJob, thumbJob, compressedJob,
            completeJob, h7]

/-- C7 witness: the final record of the concrete audio run carries no
thumbnail and no compressed-video artifact. -/
theorem c7_witness :
    (processVideo envAllOk 3 9 jobAudioW).1.thumbnailPath = none ∧
    (processVideo envAllOk 3 9 jobAudioW).1.compressedPath = none :=
  (c7_kind_artifacts_disjoint envAllOk 3 9 jobAudioW (by decide)).1 rfl
    (processVideo envAllOk 3 9 jobAudioW).1 (by decide)

theorem brPop_sound : ∀ (q : List String) (x : String) (q' : List String),
    brPop q = some (x, q') → q = q' ++ [x] := by
  intro q
  induction q with
  | nil => intro x q' h; simp [brPop] at h
  | cons a as ih =>
    intro x q' h
    cases as with
    | nil =>
      simp [brPop] at h
      obtain ⟨rfl, rfl⟩ := h
      simp
    | cons b bs =>
      cases hb : brPop (b :: bs) with
      | none => simp [brPop, hb] at h
      | some p =>
        obtain ⟨z, qq⟩ := p
        simp [brPop, hb] at h
        obtain ⟨rfl, rfl⟩ := h
        simp [ih z qq hb]

theorem runQueue_fifo_aux : ∀ (ops : List QOp) (q : List String),
    (runQueue ops q).2 ++ (runQueue ops q).1.reverse
      = q.reverse ++ enqueued ops := by
  intro ops
  induction ops with
  | nil => intro q; simp [runQueue, enqueued]
  | cons op ops ih =>
    intro q
    cases op with
    | enq x =>
      have h := ih (x :: q)
      simp [runQueue, enqueued, lPush, h]
    | deq =>
      cases hb : brPop q with
      | none => simp [runQueue, hb, enqueued, ih q]
      | some p =>
        obtain ⟨x, q'⟩ := p
        have hq := brPop_sound q x q' hb
        subst hq
        simp [runQueue, hb, enqueued, ih q']

/-- C8: the queue channel built from lPush at enqueue and brPop at
dequeue is FIFO with exactly-once delivery: for every operation sequence,
the entries delivered to the worker followed by the entries still queued
(earliest first) are exactly the enqueued entries in enqueue order — so
of two entries enqueued in order the earlier is delivered first, and
every enqueued entry is delivered at most once and removed from the
channel when delivered. -/
theorem c8_queue_fifo (ops : List QOp) :
    (runQueue ops []).2 ++ (runQueue ops []).1.reverse = enqueued ops := by
  have h := runQueue_fifo_aux ops []
  simpa using h

/-- C9 counterexample: the claim says an empty-timeout poll issues the
next dequeue immediately with no added delay, but the loop body always
pauses 100 ms before the next dequeue (worker.js line 252). -/
theorem c9_counterexample_empty_poll_delay :
    (workerIteration envAllOk 0 1 PollOutcome.timeoutEmpty).2 = 100 ∧
    ¬(workerIteration envAllOk 0 1 PollOutcome.timeoutEmpty).2 = 0 := by
  constructor <;> simp [workerIteration]

/-- C9 amended: after an empty-timeout poll the loop pauses a fixed
100 ms before the next dequeue (the same pacing pause follows a processed
job); after an infrastructure-level error it suspends for the fixed
5000 ms backoff without running any job, re-entering the polling loop
rather than re-running a specific job; a delivered job is run
synchronously through processVideo to a terminal state before the next
dequeue is requested. -/
theorem c9_worker_loop_pacing (env : Env) (t0 t1 : Nat) :
    workerIteration env t0 t1 PollOutcome.timeoutEmpty = (none, 100) ∧
    workerIteration env t0 t1 PollOutcome.infraError = (none, 5000) ∧
    ∀ j, workerIteration env t0 t1 (PollOutcome.delivered j)
        = (some (processVideo env t0 t1 j).1, 100) ∧
      ((processVideo env t0 t1 j).1.status = Status.completed ∨
        (processVideo env t0 t1 j).1.status = Status.failed) :=
  ⟨rfl, rfl, fun j => ⟨rfl, processVideo_terminal env t0 t1 j⟩⟩

/-- C10: the worker bases task selection solely on the isAudio flag of
the dequeued descriptor: changing only the tasks field changes neither
the executed task order nor any other field of the final record, and the
actually executed sequence always starts with metadata even though the
enqueue-time tasks list for video names thumbnail first. -/
theorem c10_tasks_field_has_no_effect (env : Env) (t0 t1 : Nat)
    (job : Job) (ts : List String) :
    tasksRun (processVideo env t0 t1 { job with tasks := ts }).2
      = tasksRun (processVideo env t0 t1 job).2 ∧
    (processVideo env t0 t1 { job with tasks := ts }).1
      = { (processVideo env t0 t1 job).1 with tasks := ts } ∧
    (tasksRun (processVideo env t0 t1 job).2).head?
      = some TaskName.metadataT ∧
    enqueueTasks false = ["thumbnail", "metadata", "compress"] := by
  have hAeq : ({ job with tasks := ts } : Job).isAudio = job.isAudio := rfl
  rcases hm : extractMetadata env.probeResult with e | md
  · rw [run_metaErr env t0 t1 job e hm,
      run_metaErr env t0 t1 { job with tasks := ts } e hm]
    refine ⟨?_, ?_, ?_, rfl⟩ <;>
      simp [tasksRun, failJob, startJob]
  · rcases Bool.eq_false_or_eq_true job.isAudio with hA | hA
    · have hA2 : ({ job with tasks := ts } : Job).isAudio = true :=
        hAeq.trans hA
      rcases hc : env.convertResult with e | u
      · rw [run_audio_convErr env t0 t1 job md e hA hm hc,
          run_audio_convErr env t0 t1 { job with tasks := ts } md e hA2 hm hc]
        refine ⟨?_, ?_, ?_, rfl⟩ <;>
          simp [tasksRun, failJob, startJob, metaJob]
      · cases u
        rw [run_audio_ok env t0 t1 job md hA hm hc,
          run_audio_ok env t0 t1 { job with tasks := ts } md hA2 hm hc]
        refine ⟨?_, ?_, ?_, rfl⟩ <;>
          simp [tasksRun, completeJob, startJob, metaJob, convertedJob]
    · have hA2 : ({ job with tasks := ts } : Job).isAudio = false :=
        hAeq.trans hA
      rcases ht : env.thumbnailResult with e | u
      · rw [run_video_thumbErr env t0 t1 job md e hA hm ht,
          run_video_thumbErr env t0 t1 { job with tasks := ts } md e hA2 hm ht]
        refine ⟨?_, ?_, ?_, rfl⟩ <;>
          simp [tasksRun, failJob, startJob, metaJob]
      · cases u
        rcases hk : env.compressResult with e | u
        · rw [run_video_compErr env t0 t1 job md e hA hm ht hk,
            run_video_compErr env t0 t1 { job with tasks := ts } md e hA2 hm ht hk]
          refine ⟨?_, ?_, ?_, rfl⟩ <;>
            simp [tasksRun, failJob, startJob, metaJob, thumbJob]
        · cases u
          rw [run_video_ok env t0 t1 job md hA hm ht hk,
            run_video_ok env t0 t1 { job with tasks := ts } md hA2 hm ht hk]
          refine ⟨?_, ?_, ?_, rfl⟩ <;>
            simp [tasksRun, completeJob, startJob, metaJob, thumbJob,
              compressedJob]

end VideoWeb
